import Mathlib

/-!
Shallow embedding of the NASDAQ ITCH parser (`src/parser.py`): field decoding,
per-type message decoding, categorization into buckets, frame reading and
chunked flushing.  Byte strings are lists of naturals; Python exceptions that
are caught per message are modelled with `Option`.
-/

abbrev Bytes := List Nat

/-- Big-endian value of a byte string, as computed by `struct.unpack` of an
unsigned big-endian field or `int.from_bytes(_, 'big')`. -/
def beVal (b : Bytes) : Nat := b.foldl (fun a x => a * 256 + x) 0

/-- `struct.unpack` of a fixed-size big-endian field: raises (here: `none`)
unless the slice has exactly `k` bytes. -/
def unpackBE (k : Nat) (b : Bytes) : Option Nat :=
  if b.length = k then some (beVal b) else none

/-- Python slice `m[i:j]` for `i ≤ j`: never raises, may be short. -/
def pySlice (m : Bytes) (i j : Nat) : Bytes := (m.drop i).take (j - i)

/-- Python `bytes.strip(b'\x00')`: removes NUL bytes from both ends. -/
def stripNul (w : Bytes) : Bytes :=
  ((w.dropWhile (fun x => x == 0)).reverse.dropWhile (fun x => x == 0)).reverse

/-- Python `bytes.decode('ascii', errors='ignore')`: non-ASCII bytes dropped. -/
def asciiDecode (w : Bytes) : String :=
  String.mk ((w.filter (fun x => decide (x < 128))).map Char.ofNat)

/-- The decoding applied to every fixed-width text window in `parser.py`:
`window.strip(b'\x00').decode('ascii', errors='ignore')`. -/
def textField (w : Bytes) : String := asciiDecode (stripNul w)

/-- Modelled from the spec's words for claim C6 (refinement comparison only):
interpret the window as ASCII and trim only *trailing* NUL padding, keeping
bytes before the first non-NUL byte. -/
def specTextTrailingOnly (w : Bytes) : String :=
  asciiDecode ((w.reverse.dropWhile (fun x => x == 0)).reverse)

inductive FieldVal where
  | i (n : Nat)
  | s (v : String)
  | q (v : ℚ)
deriving DecidableEq, Repr

/-- A decoded record: the Python dict, as an ordered association list. -/
abbrev Record := List (String × FieldVal)

instance : DecidableEq Record := instDecidableEqList

/-- `dict.get`: first binding of a key, if any. -/
def getField : Record → String → Option FieldVal
  | [], _ => none
  | (k, v) :: r, key => if k = key then some v else getField r key

def _parse_system_event (m : Bytes) (stock_locate tracking_number timestamp : Nat) :
    Option Record :=
  (m.get? 11).bind fun ec =>
  some [("message_type", FieldVal.s "S"),
        ("stock_locate", FieldVal.i stock_locate),
        ("tracking_number", FieldVal.i tracking_number),
        ("timestamp", FieldVal.i timestamp),
        ("event_code", FieldVal.s (String.mk [Char.ofNat ec]))]

def _parse_stock_directory (m : Bytes) (stock_locate tracking_number timestamp : Nat) :
    Option Record :=
  let stock := textField (pySlice m 11 19)
  (m.get? 19).bind fun mc =>
  (m.get? 20).bind fun fs =>
  (unpackBE 4 (pySlice m 40 44)).bind fun round_lot_size =>
  some [("message_type", FieldVal.s "R"),
        ("stock_locate", FieldVal.i stock_locate),
        ("tracking_number", FieldVal.i tracking_number),
        ("timestamp", FieldVal.i timestamp),
        ("stock", FieldVal.s stock),
        ("market_category", FieldVal.s (String.mk [Char.ofNat mc])),
        ("financial_status", FieldVal.s (String.mk [Char.ofNat fs])),
        ("round_lot_size", FieldVal.i round_lot_size)]

def _parse_add_order_no_mpid (m : Bytes) (stock_locate tracking_number timestamp : Nat) :
    Option Record :=
  (unpackBE 8 (pySlice m 19 27)).bind fun order_ref =>
  (m.get? 11).bind fun b11 =>
  let buy_sell := if Char.ofNat b11 = 'B' then "B" else "S"
  (unpackBE 4 (pySlice m 27 31)).bind fun shares =>
  let stock := textField (pySlice m 12 20)
  (unpackBE 4 (pySlice m 31 35)).bind fun praw =>
  some [("message_type", FieldVal.s "A"),
        ("stock_locate", FieldVal.i stock_locate),
        ("tracking_number", FieldVal.i tracking_number),
        ("timestamp", FieldVal.i timestamp),
        ("order_ref", FieldVal.i order_ref),
        ("buy_sell", FieldVal.s buy_sell),
        ("shares", FieldVal.i shares),
        ("stock", FieldVal.s stock),
        ("price", FieldVal.q (mkRat praw 10000))]

def _parse_add_order_with_mpid (m : Bytes) (stock_locate tracking_number timestamp : Nat) :
    Option Record :=
  (unpackBE 8 (pySlice m 19 27)).bind fun order_ref =>
  (m.get? 11).bind fun b11 =>
  let buy_sell := if Char.ofNat b11 = 'B' then "B" else "S"
  (unpackBE 4 (pySlice m 27 31)).bind fun shares =>
  let stock := textField (pySlice m 12 20)
  (unpackBE 4 (pySlice m 31 35)).bind fun praw =>
  let mpid := textField (pySlice m 35 39)
  some [("message_type", FieldVal.s "F"),
        ("stock_locate", FieldVal.i stock_locate),
        ("tracking_number", FieldVal.i tracking_number),
        ("timestamp", FieldVal.i timestamp),
        ("order_ref", FieldVal.i order_ref),
        ("buy_sell", FieldVal.s buy_sell),
        ("shares", FieldVal.i shares),
        ("stock", FieldVal.s stock),
        ("price", FieldVal.q (mkRat praw 10000)),
        ("mpid", FieldVal.s mpid)]

def _parse_order_executed (m : Bytes) (stock_locate tracking_number timestamp : Nat) :
    Option Record :=
  (unpackBE 8 (pySlice m 11 19)).bind fun order_ref =>
  (unpackBE 4 (pySlice m 19 23)).bind fun executed_shares =>
  (unpackBE 8 (pySlice m 23 31)).bind fun match_number =>
  some [("message_type", FieldVal.s "E"),
        ("stock_locate", FieldVal.i stock_locate),
        ("tracking_number", FieldVal.i tracking_number),
        ("timestamp", FieldVal.i timestamp),
        ("order_ref", FieldVal.i order_ref),
        ("executed_shares", FieldVal.i executed_shares),
        ("match_number", FieldVal.i match_number)]

def _parse_trade (m : Bytes) (stock_locate tracking_number timestamp : Nat) :
    Option Record :=
  (unpackBE 8 (pySlice m 19 27)).bind fun order_ref =>
  (unpackBE 8 (pySlice m 27 35)).bind fun shares =>
  let stock := textField (pySlice m 11 19)
  (unpackBE 4 (pySlice m 35 39)).bind fun praw =>
  (unpackBE 8 (pySlice m 39 47)).bind fun match_number =>
  some [("message_type", FieldVal.s "P"),
        ("stock_locate", FieldVal.i stock_locate),
        ("tracking_number", FieldVal.i tracking_number),
        ("timestamp", FieldVal.i timestamp),
        ("order_ref", FieldVal.i order_ref),
        ("shares", FieldVal.i shares),
        ("stock", FieldVal.s stock),
        ("price", FieldVal.q (mkRat praw 10000)),
        ("match_number", FieldVal.i match_number)]

def _parse_order_cancel (m : Bytes) (stock_locate tracking_number timestamp : Nat) :
    Option Record :=
  (unpackBE 8 (pySlice m 11 19)).bind fun order_ref =>
  (unpackBE 4 (pySlice m 19 23)).bind fun canceled_shares =>
  some [("message_type", FieldVal.s "X"),
        ("stock_locate", FieldVal.i stock_locate),
        ("tracking_number", FieldVal.i tracking_number),
        ("timestamp", FieldVal.i timestamp),
        ("order_ref", FieldVal.i order_ref),
        ("canceled_shares", FieldVal.i canceled_shares)]

def _parse_order_delete (m : Bytes) (stock_locate tracking_number timestamp : Nat) :
    Option Record :=
  (unpackBE 8 (pySlice m 11 19)).bind fun order_ref =>
  some [("message_type", FieldVal.s "D"),
        ("stock_locate", FieldVal.i stock_locate),
        ("tracking_number", FieldVal.i tracking_number),
        ("timestamp", FieldVal.i timestamp),
        ("order_ref", FieldVal.i order_ref)]

def _parse_order_replace (m : Bytes) (stock_locate tracking_number timestamp : Nat) :
    Option Record :=
  (unpackBE 8 (pySlice m 11 19)).bind fun orig_order_ref =>
  (unpackBE 8 (pySlice m 19 27)).bind fun new_order_ref =>
  (unpackBE 4 (pySlice m 27 31)).bind fun shares =>
  (unpackBE 4 (pySlice m 31 35)).bind fun praw =>
  some [("message_type", FieldVal.s "U"),
        ("stock_locate", FieldVal.i stock_locate),
        ("tracking_number", FieldVal.i tracking_number),
        ("timestamp", FieldVal.i timestamp),
        ("orig_order_ref", FieldVal.i orig_order_ref),
        ("new_order_ref", FieldVal.i new_order_ref),
        ("shares", FieldVal.i shares),
        ("price", FieldVal.q (mkRat praw 10000))]

def _parse_stock_trading_action (m : Bytes) (stock_locate tracking_number timestamp : Nat) :
    Option Record :=
  let stock := textField (pySlice m 11 19)
  (m.get? 19).bind fun ts19 =>
  (m.get? 20).bind fun _rsv =>
  let reason := textField (pySlice m 21 25)
  some [("message_type", FieldVal.s "H"),
        ("stock_locate", FieldVal.i stock_locate),
        ("tracking_number", FieldVal.i tracking_number),
        ("timestamp", FieldVal.i timestamp),
        ("stock", FieldVal.s stock),
        ("trading_state", FieldVal.s (String.mk [Char.ofNat ts19])),
        ("reason", FieldVal.s reason)]

/-- The dispatch dictionary `parsers.get(message_type)` of `_get_parser_method`. -/
def _get_parser_method (c : Char) :
    Option (Bytes → Nat → Nat → Nat → Option Record) :=
  if c = 'S' then some _parse_system_event
  else if c = 'R' then some _parse_stock_directory
  else if c = 'A' then some _parse_add_order_no_mpid
  else if c = 'F' then some _parse_add_order_with_mpid
  else if c = 'E' then some _parse_order_executed
  else if c = 'P' then some _parse_trade
  else if c = 'X' then some _parse_order_cancel
  else if c = 'D' then some _parse_order_delete
  else if c = 'U' then some _parse_order_replace
  else if c = 'H' then some _parse_stock_trading_action
  else none

/-- `_parse_message`: common header extraction, dispatch, generic fallback;
every exception inside the `try` block yields `None`. -/
def _parse_message (m : Bytes) : Option Record :=
  if m.length < 1 then none
  else
    let message_type := Char.ofNat m.headI
    (unpackBE 2 (pySlice m 1 3)).bind fun stock_locate =>
    (unpackBE 2 (pySlice m 3 5)).bind fun tracking_number =>
    let timestamp := beVal (pySlice m 5 11)
    match _get_parser_method message_type with
    | some p => p m stock_locate tracking_number timestamp
    | none =>
        some [("message_type", FieldVal.s (String.mk [message_type])),
              ("stock_locate", FieldVal.i stock_locate),
              ("tracking_number", FieldVal.i tracking_number),
              ("timestamp", FieldVal.i timestamp),
              ("raw_length", FieldVal.i m.length)]

abbrev BufferMap := List (String × List Record)

instance : DecidableEq BufferMap := instDecidableEqList

def bucketKeys : List String :=
  ["system_events", "stock_directory", "trading_actions", "add_orders", "trades",
   "order_executions", "order_cancels", "order_deletes", "order_replaces"]

def _initialize_message_buffers : BufferMap := bucketKeys.map (fun k => (k, []))

def _clear_message_buffers (bm : BufferMap) : BufferMap := bm.map (fun kv => (kv.1, []))

def appendTo (bm : BufferMap) (key : String) (r : Record) : BufferMap :=
  bm.map (fun kv => if kv.1 = key then (kv.1, kv.2 ++ [r]) else kv)

def _categorize_message (parsed : Record) (bm : BufferMap) : BufferMap :=
  match getField parsed "message_type" with
  | some (FieldVal.s t) =>
      if t = "S" then appendTo bm "system_events" parsed
      else if t = "R" then appendTo bm "stock_directory" parsed
      else if t = "H" then appendTo bm "trading_actions" parsed
      else if t = "A" ∨ t = "F" then appendTo bm "add_orders" parsed
      else if t = "P" then appendTo bm "trades" parsed
      else if t = "E" ∨ t = "C" then appendTo bm "order_executions" parsed
      else if t = "X" then appendTo bm "order_cancels" parsed
      else if t = "D" then appendTo bm "order_deletes" parsed
      else if t = "U" then appendTo bm "order_replaces" parsed
      else bm
  | _ => bm

/-- `_save_chunk_to_store`: one flush writes, for the given chunk number,
exactly the non-empty buckets. -/
def flushOp (chunk_num : Nat) (bm : BufferMap) : Nat × BufferMap :=
  (chunk_num, bm.filter (fun kv => !kv.2.isEmpty))

structure DriverState where
  buffers : BufferMap
  message_count : Nat
  chunk_count : Nat
  flushes : List (Nat × BufferMap)
deriving DecidableEq, Repr

/-- Python truthiness of `if limit and message_count >= limit`. -/
def limitHit (limit : Option Nat) (count : Nat) : Bool :=
  match limit with
  | none => false
  | some l => decide (l ≠ 0) && decide (l ≤ count)

/-- The loop body for one successfully framed message: parse, categorize on
success, advance the counter, and flush/clear on a chunk boundary. -/
def step (chunksize : Nat) (msg : Bytes) (st : DriverState) : DriverState :=
  let st1 :=
    match _parse_message msg with
    | some r => { st with buffers := _categorize_message r st.buffers }
    | none => st
  let st2 := { st1 with message_count := st1.message_count + 1 }
  if st2.message_count % chunksize = 0 then
    { st2 with
        flushes := st2.flushes ++ [flushOp st2.chunk_count st2.buffers],
        chunk_count := st2.chunk_count + 1,
        buffers := _clear_message_buffers st2.buffers }
  else st2

/-- The read loop of `parse_file_to_hdf5`, fuelled for structural recursion;
the wrapper `runLoop` always supplies sufficient fuel. -/
def runLoopF (limit : Option Nat) (chunksize : Nat) :
    Nat → Bytes → DriverState → DriverState
  | 0, _, st => st
  | fuel + 1, stream, st =>
    if limitHit limit st.message_count then st
    else if stream.length < 2 then st
    else
      let L := beVal (stream.take 2)
      let msg := (stream.drop 2).take L
      if msg.length = 0 ∨ msg.length < L then st
      else runLoopF limit chunksize fuel ((stream.drop 2).drop L) (step chunksize msg st)

def runLoop (limit : Option Nat) (chunksize : Nat) (stream : Bytes) (st : DriverState) :
    DriverState :=
  runLoopF limit chunksize (stream.length + 1) stream st

/-- `parse_file_to_hdf5`: skip the 44-byte preamble, run the read loop from
empty buffers, and perform the final flush when the message count is not a
multiple of the chunk size (without incrementing the chunk counter). -/
def parse_file_to_hdf5 (limit : Option Nat) (chunksize : Nat) (file : Bytes) :
    DriverState :=
  let st := runLoop limit chunksize (file.drop 44) ⟨_initialize_message_buffers, 0, 0, []⟩
  if st.message_count % chunksize ≠ 0 then
    { st with flushes := st.flushes ++ [flushOp st.chunk_count st.buffers] }
  else st

/-- A well-formed frame: 2-byte big-endian length prefix, then the payload. -/
def encodeFrame (p : Bytes) : Bytes := p.length / 256 :: p.length % 256 :: p

def encodeStream (ps : List Bytes) : Bytes := (ps.map encodeFrame).flatten

/-- Reference loop over a list of already-framed payloads: used to relate the
byte-level read loop to a structural recursion over messages. -/
def procPayloads (limit : Option Nat) (chunksize : Nat) :
    List Bytes → DriverState → DriverState
  | [], st => st
  | p :: ps, st =>
    if limitHit limit st.message_count then st
    else procPayloads limit chunksize ps (step chunksize p st)

/-! ### Basic facts about byte windows -/

theorem pySlice_length (m : Bytes) (i j : Nat) :
    (pySlice m i j).length = min (j - i) (m.length - i) := by
  simp [pySlice]

theorem unpackBE_eq_some {k : Nat} {b : Bytes} {v : Nat} :
    unpackBE k b = some v ↔ b.length = k ∧ v = beVal b := by
  unfold unpackBE
  split <;> simp_all <;> omega

theorem unpack_pySlice_some (m : Bytes) {i j k : Nat} (hk : j - i = k)
    (hj : j ≤ m.length) (hij : i < j) :
    unpackBE k (pySlice m i j) = some (beVal (pySlice m i j)) := by
  unfold unpackBE
  rw [pySlice_length]
  have : min (j - i) (m.length - i) = k := by omega
  simp [this]

theorem unpack_pySlice_none (m : Bytes) {i j k : Nat} (hk : j - i = k)
    (hj : m.length < j) (hij : i < j) :
    unpackBE k (pySlice m i j) = none := by
  unfold unpackBE
  rw [pySlice_length]
  have : min (j - i) (m.length - i) ≠ k := by omega
  simp [this]

theorem get?_eq_getD {m : Bytes} {i : Nat} (h : i < m.length) :
    m.get? i = some (m.getD i 0) := by
  rw [List.getD_eq_getElem?_getD, List.get?_eq_getElem?]
  cases hh : m[i]? with
  | none => simp [List.getElem?_eq_none_iff] at hh; omega
  | some v => simp

theorem get?_eq_none_of_le {m : Bytes} {i : Nat} (h : m.length ≤ i) :
    m.get? i = none := List.get?_eq_none.mpr h

theorem headI_eq_of_get? {m : Bytes} {b : Nat} (h : m.get? 0 = some b) :
    m.headI = b := by
  cases m with
  | nil => simp at h
  | cons a t => simpa using h

theorem length_pos_of_get? {m : Bytes} {b : Nat} (h : m.get? 0 = some b) :
    0 < m.length := by
  cases m with
  | nil => simp at h
  | cons a t => simp

/-! ### The read loop: fuel irrelevance and one-frame unfolding -/

theorem runLoopF_succ (limit : Option Nat) (C fuel : Nat) (stream : Bytes)
    (st : DriverState) :
    runLoopF limit C (fuel + 1) stream st =
      if limitHit limit st.message_count then st
      else if stream.length < 2 then st
      else if ((stream.drop 2).take (beVal (stream.take 2))).length = 0 ∨
              ((stream.drop 2).take (beVal (stream.take 2))).length < beVal (stream.take 2)
           then st
      else runLoopF limit C fuel ((stream.drop 2).drop (beVal (stream.take 2)))
             (step C ((stream.drop 2).take (beVal (stream.take 2))) st) := rfl

theorem runLoopF_congr (limit : Option Nat) (C : Nat) :
    ∀ (f g : Nat) (stream : Bytes) (st : DriverState),
      stream.length < f → stream.length < g →
      runLoopF limit C f stream st = runLoopF limit C g stream st := by
  intro f
  induction f with
  | zero => intro g s st hf hg; omega
  | succ f ih =>
    intro g s st hf hg
    cases g with
    | zero => omega
    | succ g =>
      rw [runLoopF_succ, runLoopF_succ]
      split_ifs with h1 h2 h3
      · rfl
      · rfl
      · rfl
      · apply ih
        · simp only [List.length_drop]; omega
        · simp only [List.length_drop]; omega

theorem runLoop_limitHit (limit : Option Nat) (C : Nat) (stream : Bytes)
    (st : DriverState) (h : limitHit limit st.message_count = true) :
    runLoop limit C stream st = st := by
  rw [runLoop, runLoopF_succ, h]
  simp

theorem runLoop_nil (limit : Option Nat) (C : Nat) (st : DriverState) :
    runLoop limit C [] st = st := by
  rw [runLoop, runLoopF_succ]
  split_ifs <;> simp_all

theorem beVal_pair (a b : Nat) : beVal [a, b] = a * 256 + b := by
  simp [beVal]

theorem runLoop_frame_cons (limit : Option Nat) (C : Nat) (p rest : Bytes)
    (st : DriverState) (hlim : limitHit limit st.message_count = false)
    (hp : 0 < p.length) (hp2 : p.length < 65536) :
    runLoop limit C (encodeFrame p ++ rest) st = runLoop limit C rest (step C p st) := by
  have hlen : (encodeFrame p ++ rest).length = p.length + rest.length + 2 := by
    simp [encodeFrame]
  have htake : (encodeFrame p ++ rest).take 2 = [p.length / 256, p.length % 256] := by
    simp [encodeFrame]
  have hdrop : (encodeFrame p ++ rest).drop 2 = p ++ rest := by
    simp [encodeFrame]
  have hbe : beVal [p.length / 256, p.length % 256] = p.length := by
    rw [beVal_pair]; omega
  have hcond : ¬ (p.length = 0 ∨ p.length < p.length) := by omega
  rw [runLoop, hlen, runLoopF_succ, hlim]
  rw [if_neg (show ¬ (false = true) by simp)]
  rw [if_neg (show ¬ ((encodeFrame p ++ rest).length < 2) by rw [hlen]; omega)]
  rw [htake, hbe, hdrop, List.take_left, List.drop_left]
  rw [if_neg hcond]
  exact runLoopF_congr limit C _ _ rest (step C p st) (by omega) (by omega)

theorem runLoop_encodeStream_append (limit : Option Nat) (C : Nat) :
    ∀ (ps : List Bytes) (tail : Bytes) (st : DriverState),
      (∀ p ∈ ps, 0 < p.length ∧ p.length < 65536) →
      runLoop limit C (encodeStream ps ++ tail) st =
        runLoop limit C tail (procPayloads limit C ps st) := by
  intro ps
  induction ps with
  | nil => intro tail st _; simp [encodeStream, procPayloads]
  | cons p ps ih =>
    intro tail st h
    have hps : encodeStream (p :: ps) ++ tail = encodeFrame p ++ (encodeStream ps ++ tail) := by
      simp [encodeStream]
    rw [hps, procPayloads]
    rcases hl : limitHit limit st.message_count with _ | _
    · rw [runLoop_frame_cons limit C p _ st hl (h p (by simp)).1 (h p (by simp)).2]
      rw [ih tail (step C p st) (fun q hq => h q (by simp [hq]))]
      simp [hl]
    · rw [runLoop_limitHit limit C _ st hl]
      simp [runLoop_limitHit limit C tail st hl]

theorem procPayloads_none (C : Nat) :
    ∀ (ps : List Bytes) (st : DriverState),
      procPayloads none C ps st = ps.foldl (fun s p => step C p s) st := by
  intro ps
  induction ps with
  | nil => intro st; rfl
  | cons p ps ih => intro st; rw [procPayloads, ih]; simp [limitHit]

/-! ### Buffer-key and flush invariants of the driver -/

/-- The buffers after the parse/categorize part of one loop iteration. -/
def bufAfter (p : Bytes) (st : DriverState) : BufferMap :=
  match _parse_message p with
  | some r => _categorize_message r st.buffers
  | none => st.buffers

theorem step_eq (C : Nat) (p : Bytes) (st : DriverState) :
    step C p st =
      if (st.message_count + 1) % C = 0 then
        ⟨_clear_message_buffers (bufAfter p st), st.message_count + 1, st.chunk_count + 1,
          st.flushes ++ [flushOp st.chunk_count (bufAfter p st)]⟩
      else ⟨bufAfter p st, st.message_count + 1, st.chunk_count, st.flushes⟩ := by
  unfold step bufAfter
  cases _parse_message p <;> rfl

theorem step_message_count (C : Nat) (p : Bytes) (st : DriverState) :
    (step C p st).message_count = st.message_count + 1 := by
  rw [step_eq]; split <;> rfl

theorem appendTo_keys (bm : BufferMap) (key : String) (r : Record) :
    (appendTo bm key r).map Prod.fst = bm.map Prod.fst := by
  simp only [appendTo, List.map_map]
  apply List.map_congr_left
  intro kv _
  by_cases h : kv.1 = key <;> simp [h]

theorem categorize_keys (r : Record) (bm : BufferMap) :
    (_categorize_message r bm).map Prod.fst = bm.map Prod.fst := by
  unfold _categorize_message
  split
  · split_ifs <;> simp [appendTo_keys]
  · rfl

theorem bufAfter_keys (p : Bytes) (st : DriverState) :
    (bufAfter p st).map Prod.fst = st.buffers.map Prod.fst := by
  unfold bufAfter
  cases _parse_message p with
  | none => rfl
  | some r => exact categorize_keys r st.buffers

theorem clear_keys (bm : BufferMap) :
    (_clear_message_buffers bm).map Prod.fst = bm.map Prod.fst := by
  simp [_clear_message_buffers, List.map_map]

theorem clear_eq_init (bm : BufferMap) (h : bm.map Prod.fst = bucketKeys) :
    _clear_message_buffers bm = _initialize_message_buffers := by
  unfold _clear_message_buffers _initialize_message_buffers
  rw [← h, List.map_map]
  rfl

/-- Invariant of the read loop after `k` messages, starting from the initial
state: the counter matches, the chunk counter equals the number of mid-stream
flushes, flush chunk numbers are `0, 1, ...`, flushed buckets are non-empty,
buffers are freshly cleared exactly on chunk boundaries, and bucket keys are
stable. -/
def LoopInv (C k : Nat) (st : DriverState) : Prop :=
  st.message_count = k ∧
  st.chunk_count = k / C ∧
  st.flushes.map Prod.fst = List.range (k / C) ∧
  (∀ f ∈ st.flushes, ∀ kv ∈ f.2, kv.2 ≠ ([] : List Record)) ∧
  (k % C = 0 → st.buffers = _initialize_message_buffers) ∧
  st.buffers.map Prod.fst = bucketKeys

theorem LoopInv_init (C : Nat) :
    LoopInv C 0 ⟨_initialize_message_buffers, 0, 0, []⟩ := by
  exact ⟨rfl, by simp, by simp, by simp, fun _ => rfl, rfl⟩

theorem LoopInv_step (C k : Nat) (hC : 0 < C) (p : Bytes) (st : DriverState)
    (h : LoopInv C k st) : LoopInv C (k + 1) (step C p st) := by
  obtain ⟨h1, h2, h3, h4, h5, h6⟩ := h
  have hbk : (bufAfter p st).map Prod.fst = bucketKeys := by
    rw [bufAfter_keys]; exact h6
  rw [step_eq, h1]
  by_cases hmod : (k + 1) % C = 0
  · rw [if_pos hmod]
    have hdvd : C ∣ (k + 1) := Nat.dvd_of_mod_eq_zero hmod
    have hsd : (k + 1) / C = k / C + 1 := by
      rw [Nat.succ_div, if_pos hdvd]
    refine ⟨rfl, by simp [h2, hsd], ?_, ?_, fun _ => clear_eq_init _ hbk, ?_⟩
    · simp only [List.map_append, h3, hsd, List.range_succ, flushOp, List.map_cons,
        List.map_nil, h2]
    · intro f hf kv hkv
      rcases List.mem_append.mp hf with hf | hf
      · exact h4 f hf kv hkv
      · simp only [List.mem_singleton] at hf
        subst hf
        simp only [flushOp, List.mem_filter] at hkv
        intro hnil
        rw [hnil] at hkv
        simp at hkv
    · rw [clear_keys]; exact hbk
  · rw [if_neg hmod]
    have hndvd : ¬ C ∣ (k + 1) := fun hd => hmod (Nat.mod_eq_zero_of_dvd hd)
    have hsd : (k + 1) / C = k / C := by
      rw [Nat.succ_div, if_neg hndvd]
      omega
    exact ⟨rfl, by simp [h2, hsd], by simp [h3, hsd], h4, fun hm => absurd hm hmod, hbk⟩

theorem LoopInv_foldl (C : Nat) (hC : 0 < C) :
    ∀ (ps : List Bytes) (k : Nat) (st : DriverState), LoopInv C k st →
      LoopInv C (k + ps.length) (ps.foldl (fun s p => step C p s) st) := by
  intro ps
  induction ps with
  | nil => intro k st h; simpa using h
  | cons p ps ih =>
    intro k st h
    have hrec := ih (k + 1) (step C p st) (LoopInv_step C k hC p st h)
    have hlen : k + (p :: ps).length = (k + 1) + ps.length := by simp; omega
    rw [hlen, List.foldl_cons]
    exact hrec

theorem procPayloads_limit (C l : Nat) (hl : 0 < l) :
    ∀ (ps : List Bytes) (st : DriverState), st.message_count ≤ l →
      procPayloads (some l) C ps st =
        (ps.take (l - st.message_count)).foldl (fun s p => step C p s) st := by
  intro ps
  induction ps with
  | nil => intro st _; simp [procPayloads]
  | cons p ps ih =>
    intro st h
    rw [procPayloads]
    by_cases he : st.message_count = l
    · have hht : limitHit (some l) st.message_count = true := by
        simp [limitHit]; omega
      rw [if_pos hht, he]
      simp
    · have hlt : st.message_count < l := by omega
      have hhf : limitHit (some l) st.message_count = false := by
        simp [limitHit]; omega
      rw [if_neg (by simp [hhf])]
      have htk : l - st.message_count = (l - (st.message_count + 1)) + 1 := by omega
      rw [htk, List.take_succ_cons, List.foldl_cons]
      have hrec := ih (step C p st) (by rw [step_message_count]; omega)
      rw [hrec, step_message_count]

theorem runLoop_truncated (limit : Option Nat) (C a b : Nat) (tail : Bytes)
    (st : DriverState) (ht : tail.length < a * 256 + b) :
    runLoop limit C (a :: b :: tail) st = st := by
  rw [runLoop, runLoopF_succ]
  split_ifs with h1 h2 h3
  · rfl
  · rfl
  · rfl
  · exfalso
    have htk : (a :: b :: tail).take 2 = [a, b] := rfl
    have hdp : (a :: b :: tail).drop 2 = tail := rfl
    rw [htk, hdp, beVal_pair] at h3
    simp only [List.length_take] at h3
    omega

theorem runLoop_zero_length_frame (limit : Option Nat) (C : Nat) (tail : Bytes)
    (st : DriverState) :
    runLoop limit C (0 :: 0 :: tail) st = st := by
  rw [runLoop, runLoopF_succ]
  split_ifs with h1 h2 h3
  · rfl
  · rfl
  · rfl
  · exfalso
    have htk : ((0 : Nat) :: 0 :: tail).take 2 = [0, 0] := rfl
    have hdp : ((0 : Nat) :: 0 :: tail).drop 2 = tail := rfl
    rw [htk, hdp, beVal_pair] at h3
    simp at h3

theorem drop_preamble (s : Bytes) : (List.replicate 44 0 ++ s).drop 44 = s :=
  List.drop_left' (by simp)

theorem ceil_div_cases (M C : Nat) (hC : 0 < C) :
    (M + C - 1) / C = if M % C = 0 then M / C else M / C + 1 := by
  obtain ⟨q, r, hr, hM⟩ : ∃ q r, r < C ∧ M = C * q + r :=
    ⟨M / C, M % C, Nat.mod_lt _ hC, by rw [Nat.div_add_mod]⟩
  subst hM
  have hmod : (C * q + r) % C = r := by
    rw [Nat.mul_add_mod, Nat.mod_eq_of_lt hr]
  have hdiv : (C * q + r) / C = q := by
    rw [Nat.mul_add_div hC, Nat.div_eq_of_lt hr]
    omega
  by_cases h : r = 0
  · subst h
    rw [if_pos hmod, hdiv]
    have he : C * q + 0 + C - 1 = C * q + (C - 1) := by omega
    rw [he, Nat.mul_add_div hC, Nat.div_eq_of_lt (by omega)]
    omega
  · rw [if_neg (by omega : ¬ (C * q + r) % C = 0)]
    rw [hdiv]
    have he : C * q + r + C - 1 = C * q + (r - 1 + C) := by omega
    rw [he, Nat.mul_add_div hC, Nat.add_div_right _ hC, Nat.div_eq_of_lt (by omega)]

/-! ### Per-routine decode characterizations -/

theorem parseS_none_iff (m : Bytes) (sl tn ts : Nat) :
    _parse_system_event m sl tn ts = none ↔ m.length < 12 := by
  unfold _parse_system_event
  by_cases h12 : m.length < 12
  · rw [get?_eq_none_of_le (by omega)]
    simp
    omega
  · rw [get?_eq_getD (by omega)]
    simp
    omega

theorem parseR_none_iff (m : Bytes) (sl tn ts : Nat) :
    _parse_stock_directory m sl tn ts = none ↔ m.length < 44 := by
  unfold _parse_stock_directory
  by_cases h20 : m.length < 20
  · rw [get?_eq_none_of_le (by omega)]
    simp
    omega
  · rw [get?_eq_getD (by omega)]
    simp only [Option.some_bind]
    by_cases h21 : m.length < 21
    · rw [get?_eq_none_of_le (by omega)]
      simp
      omega
    · rw [get?_eq_getD (by omega)]
      simp only [Option.some_bind]
      by_cases h44 : m.length < 44
      · rw [unpack_pySlice_none m (by norm_num) (by omega) (by norm_num)]
        simp
        omega
      · rw [unpack_pySlice_some m (by norm_num) (by omega) (by norm_num)]
        simp
        omega

theorem parseA_none_iff (m : Bytes) (sl tn ts : Nat) :
    _parse_add_order_no_mpid m sl tn ts = none ↔ m.length < 35 := by
  unfold _parse_add_order_no_mpid
  by_cases h27 : m.length < 27
  · rw [unpack_pySlice_none m (by norm_num) (by omega) (by norm_num)]
    simp
    omega
  · rw [unpack_pySlice_some m (by norm_num) (by omega) (by norm_num)]
    simp only [Option.some_bind]
    rw [get?_eq_getD (by omega)]
    simp only [Option.some_bind]
    by_cases h31 : m.length < 31
    · rw [unpack_pySlice_none m (by norm_num) (by omega) (by norm_num)]
      simp
      omega
    · rw [unpack_pySlice_some m (by norm_num) (by omega) (by norm_num)]
      simp only [Option.some_bind]
      by_cases h35 : m.length < 35
      · rw [unpack_pySlice_none m (by norm_num) (by omega) (by norm_num)]
        simp
        omega
      · rw [unpack_pySlice_some m (by norm_num) (by omega) (by norm_num)]
        simp
        omega

theorem parseF_none_iff (m : Bytes) (sl tn ts : Nat) :
    _parse_add_order_with_mpid m sl tn ts = none ↔ m.length < 35 := by
  unfold _parse_add_order_with_mpid
  by_cases h27 : m.length < 27
  · rw [unpack_pySlice_none m (by norm_num) (by omega) (by norm_num)]
    simp
    omega
  · rw [unpack_pySlice_some m (by norm_num) (by omega) (by norm_num)]
    simp only [Option.some_bind]
    rw [get?_eq_getD (by omega)]
    simp only [Option.some_bind]
    by_cases h31 : m.length < 31
    · rw [unpack_pySlice_none m (by norm_num) (by omega) (by norm_num)]
      simp
      omega
    · rw [unpack_pySlice_some m (by norm_num) (by omega) (by norm_num)]
      simp only [Option.some_bind]
      by_cases h35 : m.length < 35
      · rw [unpack_pySlice_none m (by norm_num) (by omega) (by norm_num)]
        simp
        omega
      · rw [unpack_pySlice_some m (by norm_num) (by omega) (by norm_num)]
        simp
        omega

theorem parseE_none_iff (m : Bytes) (sl tn ts : Nat) :
    _parse_order_executed m sl tn ts = none ↔ m.length < 31 := by
  unfold _parse_order_executed
  by_cases h19 : m.length < 19
  · rw [unpack_pySlice_none m (by norm_num) (by omega) (by norm_num)]
    simp
    omega
  · rw [unpack_pySlice_some m (by norm_num) (by omega) (by norm_num)]
    simp only [Option.some_bind]
    by_cases h23 : m.length < 23
    · rw [unpack_pySlice_none m (by norm_num) (by omega) (by norm_num)]
      simp
      omega
    · rw [unpack_pySlice_some m (by norm_num) (by omega) (by norm_num)]
      simp only [Option.some_bind]
      by_cases h31 : m.length < 31
      · rw [unpack_pySlice_none m (by norm_num) (by omega) (by norm_num)]
        simp
        omega
      · rw [unpack_pySlice_some m (by norm_num) (by omega) (by norm_num)]
        simp
        omega

theorem parseP_none_iff (m : Bytes) (sl tn ts : Nat) :
    _parse_trade m sl tn ts = none ↔ m.length < 47 := by
  unfold _parse_trade
  by_cases h27 : m.length < 27
  · rw [unpack_pySlice_none m (by norm_num) (by omega) (by norm_num)]
    simp
    omega
  · rw [unpack_pySlice_some m (by norm_num) (by omega) (by norm_num)]
    simp only [Option.some_bind]
    by_cases h35 : m.length < 35
    · rw [unpack_pySlice_none m (by norm_num) (by omega) (by norm_num)]
      simp
      omega
    · rw [unpack_pySlice_some m (by norm_num) (by omega) (by norm_num)]
      simp only [Option.some_bind]
      by_cases h39 : m.length < 39
      · rw [unpack_pySlice_none m (by norm_num) (by omega) (by norm_num)]
        simp
        omega
      · rw [unpack_pySlice_some m (by norm_num) (by omega) (by norm_num)]
        simp only [Option.some_bind]
        by_cases h47 : m.length < 47
        · rw [unpack_pySlice_none m (by norm_num) (by omega) (by norm_num)]
          simp
          omega
        · rw [unpack_pySlice_some m (by norm_num) (by omega) (by norm_num)]
          simp
          omega

theorem parseX_none_iff (m : Bytes) (sl tn ts : Nat) :
    _parse_order_cancel m sl tn ts = none ↔ m.length < 23 := by
  unfold _parse_order_cancel
  by_cases h19 : m.length < 19
  · rw [unpack_pySlice_none m (by norm_num) (by omega) (by norm_num)]
    simp
    omega
  · rw [unpack_pySlice_some m (by norm_num) (by omega) (by norm_num)]
    simp only [Option.some_bind]
    by_cases h23 : m.length < 23
    · rw [unpack_pySlice_none m (by norm_num) (by omega) (by norm_num)]
      simp
      omega
    · rw [unpack_pySlice_some m (by norm_num) (by omega) (by norm_num)]
      simp
      omega

theorem parseD_none_iff (m : Bytes) (sl tn ts : Nat) :
    _parse_order_delete m sl tn ts = none ↔ m.length < 19 := by
  unfold _parse_order_delete
  by_cases h19 : m.length < 19
  · rw [unpack_pySlice_none m (by norm_num) (by omega) (by norm_num)]
    simp
    omega
  · rw [unpack_pySlice_some m (by norm_num) (by omega) (by norm_num)]
    simp
    omega

theorem parseU_none_iff (m : Bytes) (sl tn ts : Nat) :
    _parse_order_replace m sl tn ts = none ↔ m.length < 35 := by
  unfold _parse_order_replace
  by_cases h19 : m.length < 19
  · rw [unpack_pySlice_none m (by norm_num) (by omega) (by norm_num)]
    simp
    omega
  · rw [unpack_pySlice_some m (by norm_num) (by omega) (by norm_num)]
    simp only [Option.some_bind]
    by_cases h27 : m.length < 27
    · rw [unpack_pySlice_none m (by norm_num) (by omega) (by norm_num)]
      simp
      omega
    · rw [unpack_pySlice_some m (by norm_num) (by omega) (by norm_num)]
      simp only [Option.some_bind]
      by_cases h31 : m.length < 31
      · rw [unpack_pySlice_none m (by norm_num) (by omega) (by norm_num)]
        simp
        omega
      · rw [unpack_pySlice_some m (by norm_num) (by omega) (by norm_num)]
        simp only [Option.some_bind]
        by_cases h35 : m.length < 35
        · rw [unpack_pySlice_none m (by norm_num) (by omega) (by norm_num)]
          simp
          omega
        · rw [unpack_pySlice_some m (by norm_num) (by omega) (by norm_num)]
          simp
          omega

theorem parseH_none_iff (m : Bytes) (sl tn ts : Nat) :
    _parse_stock_trading_action m sl tn ts = none ↔ m.length < 21 := by
  unfold _parse_stock_trading_action
  by_cases h20 : m.length < 20
  · rw [get?_eq_none_of_le (by omega)]
    simp
    omega
  · rw [get?_eq_getD (by omega)]
    simp only [Option.some_bind]
    by_cases h21 : m.length < 21
    · rw [get?_eq_none_of_le (by omega)]
      simp
      omega
    · rw [get?_eq_getD (by omega)]
      simp
      omega

theorem parseS_fields (m : Bytes) (sl tn ts : Nat) (r : Record)
    (h : _parse_system_event m sl tn ts = some r) :
    getField r "message_type" = some (FieldVal.s "S") ∧
    getField r "stock_locate" = some (FieldVal.i sl) ∧
    getField r "tracking_number" = some (FieldVal.i tn) ∧
    getField r "timestamp" = some (FieldVal.i ts) := by
  unfold _parse_system_event at h
  simp only [Option.bind_eq_some, Option.some.injEq] at h
  obtain ⟨a, ha, hr⟩ := h
  subst hr
  simp [getField]

theorem parseR_fields (m : Bytes) (sl tn ts : Nat) (r : Record)
    (h : _parse_stock_directory m sl tn ts = some r) :
    getField r "message_type" = some (FieldVal.s "R") ∧
    getField r "stock_locate" = some (FieldVal.i sl) ∧
    getField r "tracking_number" = some (FieldVal.i tn) ∧
    getField r "timestamp" = some (FieldVal.i ts) := by
  unfold _parse_stock_directory at h
  simp only [Option.bind_eq_some, Option.some.injEq] at h
  obtain ⟨a, ha, b, hb, c, hc, hr⟩ := h
  subst hr
  simp [getField]

theorem parseA_fields (m : Bytes) (sl tn ts : Nat) (r : Record)
    (h : _parse_add_order_no_mpid m sl tn ts = some r) :
    getField r "message_type" = some (FieldVal.s "A") ∧
    getField r "stock_locate" = some (FieldVal.i sl) ∧
    getField r "tracking_number" = some (FieldVal.i tn) ∧
    getField r "timestamp" = some (FieldVal.i ts) := by
  unfold _parse_add_order_no_mpid at h
  simp only [Option.bind_eq_some, Option.some.injEq] at h
  obtain ⟨a, ha, b, hb, c, hc, d, hd, hr⟩ := h
  subst hr
  simp [getField]

theorem parseF_fields (m : Bytes) (sl tn ts : Nat) (r : Record)
    (h : _parse_add_order_with_mpid m sl tn ts = some r) :
    getField r "message_type" = some (FieldVal.s "F") ∧
    getField r "stock_locate" = some (FieldVal.i sl) ∧
    getField r "tracking_number" = some (FieldVal.i tn) ∧
    getField r "timestamp" = some (FieldVal.i ts) := by
  unfold _parse_add_order_with_mpid at h
  simp only [Option.bind_eq_some, Option.some.injEq] at h
  obtain ⟨a, ha, b, hb, c, hc, d, hd, hr⟩ := h
  subst hr
  simp [getField]

theorem parseE_fields (m : Bytes) (sl tn ts : Nat) (r : Record)
    (h : _parse_order_executed m sl tn ts = some r) :
    getField r "message_type" = some (FieldVal.s "E") ∧
    getField r "stock_locate" = some (FieldVal.i sl) ∧
    getField r "tracking_number" = some (FieldVal.i tn) ∧
    getField r "timestamp" = some (FieldVal.i ts) := by
  unfold _parse_order_executed at h
  simp only [Option.bind_eq_some, Option.some.injEq] at h
  obtain ⟨a, ha, b, hb, c, hc, hr⟩ := h
  subst hr
  simp [getField]

theorem parseP_fields (m : Bytes) (sl tn ts : Nat) (r : Record)
    (h : _parse_trade m sl tn ts = some r) :
    getField r "message_type" = some (FieldVal.s "P") ∧
    getField r "stock_locate" = some (FieldVal.i sl) ∧
    getField r "tracking_number" = some (FieldVal.i tn) ∧
    getField r "timestamp" = some (FieldVal.i ts) := by
  unfold _parse_trade at h
  simp only [Option.bind_eq_some, Option.some.injEq] at h
  obtain ⟨a, ha, b, hb, c, hc, d, hd, hr⟩ := h
  subst hr
  simp [getField]

theorem parseX_fields (m : Bytes) (sl tn ts : Nat) (r : Record)
    (h : _parse_order_cancel m sl tn ts = some r) :
    getField r "message_type" = some (FieldVal.s "X") ∧
    getField r "stock_locate" = some (FieldVal.i sl) ∧
    getField r "tracking_number" = some (FieldVal.i tn) ∧
    getField r "timestamp" = some (FieldVal.i ts) := by
  unfold _parse_order_cancel at h
  simp only [Option.bind_eq_some, Option.some.injEq] at h
  obtain ⟨a, ha, b, hb, hr⟩ := h
  subst hr
  simp [getField]

theorem parseD_fields (m : Bytes) (sl tn ts : Nat) (r : Record)
    (h : _parse_order_delete m sl tn ts = some r) :
    getField r "message_type" = some (FieldVal.s "D") ∧
    getField r "stock_locate" = some (FieldVal.i sl) ∧
    getField r "tracking_number" = some (FieldVal.i tn) ∧
    getField r "timestamp" = some (FieldVal.i ts) := by
  unfold _parse_order_delete at h
  simp only [Option.bind_eq_some, Option.some.injEq] at h
  obtain ⟨a, ha, hr⟩ := h
  subst hr
  simp [getField]

theorem parseU_fields (m : Bytes) (sl tn ts : Nat) (r : Record)
    (h : _parse_order_replace m sl tn ts = some r) :
    getField r "message_type" = some (FieldVal.s "U") ∧
    getField r "stock_locate" = some (FieldVal.i sl) ∧
    getField r "tracking_number" = some (FieldVal.i tn) ∧
    getField r "timestamp" = some (FieldVal.i ts) := by
  unfold _parse_order_replace at h
  simp only [Option.bind_eq_some, Option.some.injEq] at h
  obtain ⟨a, ha, b, hb, c, hc, d, hd, hr⟩ := h
  subst hr
  simp [getField]

theorem parseH_fields (m : Bytes) (sl tn ts : Nat) (r : Record)
    (h : _parse_stock_trading_action m sl tn ts = some r) :
    getField r "message_type" = some (FieldVal.s "H") ∧
    getField r "stock_locate" = some (FieldVal.i sl) ∧
    getField r "tracking_number" = some (FieldVal.i tn) ∧
    getField r "timestamp" = some (FieldVal.i ts) := by
  unfold _parse_stock_trading_action at h
  simp only [Option.bind_eq_some, Option.some.injEq] at h
  obtain ⟨a, ha, b, hb, hr⟩ := h
  subst hr
  simp [getField]

/-- Length below which the decode of a payload of the given type actually
fails in the code (the first fixed-offset scalar or single-byte access that
raises); below this the Message Decoder yields no record. -/
def decodeThreshold (c : Char) : Nat :=
  if c = 'S' then 12 else if c = 'R' then 44 else if c = 'A' then 35
  else if c = 'F' then 35 else if c = 'E' then 31 else if c = 'P' then 47
  else if c = 'X' then 23 else if c = 'D' then 19 else if c = 'U' then 35
  else if c = 'H' then 21 else 5

/-- The payload length each type's routine requires per the spec's field
table: one past the largest byte offset any of its fields reads. -/
def requiredLen (c : Char) : Nat :=
  if c = 'S' then 12 else if c = 'R' then 44 else if c = 'A' then 35
  else if c = 'F' then 39 else if c = 'E' then 31 else if c = 'P' then 47
  else if c = 'X' then 23 else if c = 'D' then 19 else if c = 'U' then 35
  else if c = 'H' then 25 else 5

theorem decodeThreshold_ge (c : Char) : 5 ≤ decodeThreshold c := by
  unfold decodeThreshold
  split_ifs <;> norm_num

/-- The Message Decoder returns no record exactly when the payload is shorter
than its type's failure threshold. -/
theorem parse_message_none_iff (m : Bytes) (hlen : 0 < m.length) :
    _parse_message m = none ↔ m.length < decodeThreshold (Char.ofNat m.headI) := by
  unfold _parse_message
  rw [if_neg (by omega)]
  have hthr := decodeThreshold_ge (Char.ofNat m.headI)
  by_cases h3 : m.length < 3
  · rw [unpack_pySlice_none m (by norm_num) (by omega) (by norm_num)]
    simp only [Option.none_bind]
    simp
    omega
  · rw [unpack_pySlice_some m (by norm_num) (by omega) (by norm_num)]
    simp only [Option.some_bind]
    by_cases h5 : m.length < 5
    · rw [unpack_pySlice_none m (by norm_num) (by omega) (by norm_num)]
      simp only [Option.none_bind]
      simp
      omega
    · rw [unpack_pySlice_some m (by norm_num) (by omega) (by norm_num)]
      simp only [Option.some_bind]
      by_cases hS : Char.ofNat m.headI = 'S'
      · simp only [hS, _get_parser_method, if_pos rfl, decodeThreshold]
        exact parseS_none_iff m _ _ _
      by_cases hR : Char.ofNat m.headI = 'R'
      · simp only [hR, hS, _get_parser_method, decodeThreshold, if_neg, if_pos rfl,
          reduceCtorEq, reduceIte]
        exact parseR_none_iff m _ _ _
      by_cases hA : Char.ofNat m.headI = 'A'
      · simp only [hA, _get_parser_method, decodeThreshold, reduceIte]
        exact parseA_none_iff m _ _ _
      by_cases hF : Char.ofNat m.headI = 'F'
      · simp only [hF, _get_parser_method, decodeThreshold, reduceIte]
        exact parseF_none_iff m _ _ _
      by_cases hE : Char.ofNat m.headI = 'E'
      · simp only [hE, _get_parser_method, decodeThreshold, reduceIte]
        exact parseE_none_iff m _ _ _
      by_cases hP : Char.ofNat m.headI = 'P'
      · simp only [hP, _get_parser_method, decodeThreshold, reduceIte]
        exact parseP_none_iff m _ _ _
      by_cases hX : Char.ofNat m.headI = 'X'
      · simp only [hX, _get_parser_method, decodeThreshold, reduceIte]
        exact parseX_none_iff m _ _ _
      by_cases hD : Char.ofNat m.headI = 'D'
      · simp only [hD, _get_parser_method, decodeThreshold, reduceIte]
        exact parseD_none_iff m _ _ _
      by_cases hU : Char.ofNat m.headI = 'U'
      · simp only [hU, _get_parser_method, decodeThreshold, reduceIte]
        exact parseU_none_iff m _ _ _
      by_cases hH : Char.ofNat m.headI = 'H'
      · simp only [hH, _get_parser_method, decodeThreshold, reduceIte]
        exact parseH_none_iff m _ _ _
      · simp only [_get_parser_method, decodeThreshold,
          if_neg hS, if_neg hR, if_neg hA, if_neg hF, if_neg hE, if_neg hP,
          if_neg hX, if_neg hD, if_neg hU, if_neg hH]
        simp
        omega

set_option maxHeartbeats 1200000 in
/-- Every record the Message Decoder produces carries the four common header
fields, decoded from the fixed header offsets. -/
theorem parse_message_fields (m : Bytes) (r : Record)
    (h : _parse_message m = some r) :
    getField r "message_type" = some (FieldVal.s (String.mk [Char.ofNat m.headI])) ∧
    getField r "stock_locate" = some (FieldVal.i (beVal (pySlice m 1 3))) ∧
    getField r "tracking_number" = some (FieldVal.i (beVal (pySlice m 3 5))) ∧
    getField r "timestamp" = some (FieldVal.i (beVal (pySlice m 5 11))) := by
  unfold _parse_message at h
  by_cases h1 : m.length < 1
  · rw [if_pos h1] at h
    exact absurd h (by simp)
  · rw [if_neg h1] at h
    obtain ⟨sl, hsl, h⟩ := Option.bind_eq_some.mp h
    obtain ⟨tn, htn, h⟩ := Option.bind_eq_some.mp h
    obtain ⟨hsl_len, hsl_val⟩ := unpackBE_eq_some.mp hsl
    obtain ⟨htn_len, htn_val⟩ := unpackBE_eq_some.mp htn
    subst hsl_val
    subst htn_val
    rcases hdisp : _get_parser_method (Char.ofNat m.headI) with _ | p
    · rw [hdisp] at h
      simp only [Option.some.injEq] at h
      subst h
      simp [getField]
    · rw [hdisp] at h
      unfold _get_parser_method at hdisp
      split_ifs at hdisp with hc1 hc2 hc3 hc4 hc5 hc6 hc7 hc8 hc9 hc10 <;>
        simp only [Option.some.injEq] at hdisp
      · subst hdisp
        rw [hc1]
        exact parseS_fields m _ _ _ r h
      · subst hdisp
        rw [hc2]
        exact parseR_fields m _ _ _ r h
      · subst hdisp
        rw [hc3]
        exact parseA_fields m _ _ _ r h
      · subst hdisp
        rw [hc4]
        exact parseF_fields m _ _ _ r h
      · subst hdisp
        rw [hc5]
        exact parseE_fields m _ _ _ r h
      · subst hdisp
        rw [hc6]
        exact parseP_fields m _ _ _ r h
      · subst hdisp
        rw [hc7]
        exact parseX_fields m _ _ _ r h
      · subst hdisp
        rw [hc8]
        exact parseD_fields m _ _ _ r h
      · subst hdisp
        rw [hc9]
        exact parseU_fields m _ _ _ r h
      · subst hdisp
        rw [hc10]
        exact parseH_fields m _ _ _ r h

/-! ### Dispatch-level reductions of the Message Decoder -/

theorem parse_message_dispatch (m : Bytes) (h5 : 5 ≤ m.length)
    (p : Bytes → Nat → Nat → Nat → Option Record)
    (hdisp : _get_parser_method (Char.ofNat m.headI) = some p) :
    _parse_message m =
      p m (beVal (pySlice m 1 3)) (beVal (pySlice m 3 5)) (beVal (pySlice m 5 11)) := by
  unfold _parse_message
  rw [if_neg (by omega)]
  rw [unpack_pySlice_some m (by norm_num) (by omega) (by norm_num)]
  simp only [Option.some_bind]
  rw [unpack_pySlice_some m (by norm_num) (by omega) (by norm_num)]
  simp only [Option.some_bind]
  rw [hdisp]

theorem parse_message_generic (m : Bytes) (h5 : 5 ≤ m.length)
    (hdisp : _get_parser_method (Char.ofNat m.headI) = none) :
    _parse_message m = some
      [("message_type", FieldVal.s (String.mk [Char.ofNat m.headI])),
       ("stock_locate", FieldVal.i (beVal (pySlice m 1 3))),
       ("tracking_number", FieldVal.i (beVal (pySlice m 3 5))),
       ("timestamp", FieldVal.i (beVal (pySlice m 5 11))),
       ("raw_length", FieldVal.i m.length)] := by
  unfold _parse_message
  rw [if_neg (by omega)]
  rw [unpack_pySlice_some m (by norm_num) (by omega) (by norm_num)]
  simp only [Option.some_bind]
  rw [unpack_pySlice_some m (by norm_num) (by omega) (by norm_num)]
  simp only [Option.some_bind]
  rw [hdisp]

theorem mkRat_natCast_div (n : Nat) : (mkRat n 10000 : ℚ) = (n : ℚ) / 10000 := by
  rw [Rat.mkRat_eq_divInt, Rat.divInt_eq_div]
  norm_num

/-! ### Sample payloads used by witnesses and counterexamples -/

/-- A 12-byte type-S payload: zero header, event code `'O'`. -/
def sPayload_scenario : Bytes := 83 :: (List.replicate 10 0 ++ [79])

/-- A 35-byte type-A payload: zero header, buy side, stock `TEST`,
order reference 42, 100 shares, raw price 1235000. -/
def mA_sample : Bytes :=
  [65] ++ List.replicate 10 0 ++ [66] ++ [84, 69, 83, 84, 0, 0, 0, 0] ++
  [0, 0, 0, 0, 0, 0, 42] ++ [0, 0, 0, 100] ++ [0, 18, 216, 56]

/-- A 21-byte type-H payload: the 4-byte reason window (offsets 21:25) is
entirely missing. -/
def mH_sample : Bytes :=
  72 :: (List.replicate 10 0 ++ ([84, 69, 83, 84, 0, 0, 0, 0] ++ [72, 0]))

/-- A 5-byte type-D payload: far too short for its 11:19 order reference. -/
def mD_sample : Bytes := [68, 0, 1, 0, 2]

/-- A 5-byte type-C payload: long enough for the common header only. -/
def mC_sample : Bytes := [67, 0, 1, 0, 2]

/-- A 12-byte payload of unknown type `'B'` (Broken Trade has no routine). -/
def mB_sample : Bytes := [66, 0, 1, 0, 2, 0, 0, 0, 0, 0, 0, 9]

/-- A 44-byte type-R payload whose stock window starts with a NUL byte. -/
def mR_sample : Bytes :=
  [82] ++ List.replicate 10 0 ++ [0, 65, 66, 67, 0, 0, 0, 0] ++ [78, 78] ++
  List.replicate 19 0 ++ [0, 0, 0, 100]

/-! ### Claim theorems -/

/-- C1: for every type-'A' payload long enough for its offsets (35 bytes),
the decoded record has `buy_sell` = the character at offset 11 when it is
`'B'` and `'S'` otherwise, `stock` = the ASCII text of bytes 12:20 with NUL
padding stripped, `order_ref` = u64be of bytes 19:27, `shares` = u32be of
bytes 27:31, and `price` = u32be of bytes 31:35 divided by 10000; a raw
price field of 1235000 decodes to 123.5. -/
theorem addOrderNoMpid_decode_spec (m : Bytes) (h0 : m.get? 0 = some 65)
    (hlen : 35 ≤ m.length) :
    _parse_message m = some
      [("message_type", FieldVal.s "A"),
       ("stock_locate", FieldVal.i (beVal (pySlice m 1 3))),
       ("tracking_number", FieldVal.i (beVal (pySlice m 3 5))),
       ("timestamp", FieldVal.i (beVal (pySlice m 5 11))),
       ("order_ref", FieldVal.i (beVal (pySlice m 19 27))),
       ("buy_sell", FieldVal.s (if Char.ofNat (m.getD 11 0) = 'B' then "B" else "S")),
       ("shares", FieldVal.i (beVal (pySlice m 27 31))),
       ("stock", FieldVal.s (textField (pySlice m 12 20))),
       ("price", FieldVal.q (mkRat (beVal (pySlice m 31 35)) 10000))] ∧
    (mkRat (beVal (pySlice m 31 35)) 10000 : ℚ) = (beVal (pySlice m 31 35) : ℚ) / 10000 ∧
    (beVal (pySlice m 31 35) = 1235000 →
      (mkRat (beVal (pySlice m 31 35)) 10000 : ℚ) = 123.5) := by
  have hc : Char.ofNat m.headI = 'A' := by rw [headI_eq_of_get? h0]
  refine ⟨?_, mkRat_natCast_div _, ?_⟩
  · rw [parse_message_dispatch m (by omega) _parse_add_order_no_mpid
      (by rw [hc]; try rfl)]
    unfold _parse_add_order_no_mpid
    rw [unpack_pySlice_some m (by norm_num) (by omega) (by norm_num)]
    simp only [Option.some_bind]
    rw [get?_eq_getD (by omega)]
    simp only [Option.some_bind]
    rw [unpack_pySlice_some m (by norm_num) (by omega) (by norm_num)]
    simp only [Option.some_bind]
    rw [unpack_pySlice_some m (by norm_num) (by omega) (by norm_num)]
    simp only [Option.some_bind]
  · intro hq
    rw [hq]
    norm_num [Rat.mkRat_eq_divInt, Rat.divInt_eq_div]

theorem addOrderNoMpid_decode_spec_witness :
    _parse_message mA_sample = some
      [("message_type", FieldVal.s "A"), ("stock_locate", FieldVal.i 0),
       ("tracking_number", FieldVal.i 0), ("timestamp", FieldVal.i 0),
       ("order_ref", FieldVal.i 42), ("buy_sell", FieldVal.s "B"),
       ("shares", FieldVal.i 100), ("stock", FieldVal.s "TEST"),
       ("price", FieldVal.q (mkRat 1235000 10000))] ∧
    (mkRat 1235000 10000 : ℚ) = 123.5 := by
  have h := addOrderNoMpid_decode_spec mA_sample (by decide) (by decide)
  refine ⟨h.1.trans (by decide), ?_⟩
  have hq : beVal (pySlice mA_sample 31 35) = 1235000 := by decide
  have h2 := h.2.2 hq
  rw [hq] at h2
  exact h2

/-- C8 (counterexample): on the scenario payload — type 'S', header bytes 1..10
all zero, byte 11 = 'O' — the decoded `stock_locate` is 0, not 1 as the claim
states. -/
theorem systemEvent_scenario_counterexample :
    (_parse_message sPayload_scenario).bind (fun r => getField r "stock_locate") =
      some (FieldVal.i 0) ∧
    (_parse_message sPayload_scenario).bind (fun r => getField r "stock_locate") ≠
      some (FieldVal.i 1) := by
  decide

/-- C8 (amended): the scenario payload decodes to
`{message_type: 'S', event_code: 'O', stock_locate: 0, tracking_number: 0,
timestamp: 0}` — with `stock_locate` 0, since its header bytes are zero. -/
theorem systemEvent_scenario_amended :
    _parse_message sPayload_scenario = some
      [("message_type", FieldVal.s "S"), ("stock_locate", FieldVal.i 0),
       ("tracking_number", FieldVal.i 0), ("timestamp", FieldVal.i 0),
       ("event_code", FieldVal.s "O")] := by
  decide

/-- C9: every record the Message Decoder produces — per-type routine or
generic fallback — carries the four common header fields `message_type`,
`stock_locate` (u16be of bytes 1:3), `tracking_number` (u16be of bytes 3:5)
and `timestamp` (u48be of bytes 5:11). -/
theorem records_carry_header_fields (m : Bytes) (r : Record)
    (h : _parse_message m = some r) :
    getField r "message_type" = some (FieldVal.s (String.mk [Char.ofNat m.headI])) ∧
    getField r "stock_locate" = some (FieldVal.i (beVal (pySlice m 1 3))) ∧
    getField r "tracking_number" = some (FieldVal.i (beVal (pySlice m 3 5))) ∧
    getField r "timestamp" = some (FieldVal.i (beVal (pySlice m 5 11))) :=
  parse_message_fields m r h

theorem records_carry_header_fields_witness :
    _parse_message mB_sample = some
      [("message_type", FieldVal.s "B"), ("stock_locate", FieldVal.i 1),
       ("tracking_number", FieldVal.i 2), ("timestamp", FieldVal.i 0),
       ("raw_length", FieldVal.i 12)] ∧
    getField [("message_type", FieldVal.s "B"), ("stock_locate", FieldVal.i 1),
       ("tracking_number", FieldVal.i 2), ("timestamp", FieldVal.i 0),
       ("raw_length", FieldVal.i 12)] "message_type" = some (FieldVal.s "B") ∧
    getField [("message_type", FieldVal.s "B"), ("stock_locate", FieldVal.i 1),
       ("tracking_number", FieldVal.i 2), ("timestamp", FieldVal.i 0),
       ("raw_length", FieldVal.i 12)] "stock_locate" = some (FieldVal.i 1) := by
  have h := records_carry_header_fields mB_sample
    [("message_type", FieldVal.s "B"), ("stock_locate", FieldVal.i 1),
     ("tracking_number", FieldVal.i 2), ("timestamp", FieldVal.i 0),
     ("raw_length", FieldVal.i 12)] (by decide)
  exact ⟨by decide, h.1.trans (by decide), h.2.1.trans (by decide)⟩

/-- The generic-fallback record the code builds for a type-'C' payload. -/
def genericRecordC (m : Bytes) : Record :=
  [("message_type", FieldVal.s "C"),
   ("stock_locate", FieldVal.i (beVal (pySlice m 1 3))),
   ("tracking_number", FieldVal.i (beVal (pySlice m 3 5))),
   ("timestamp", FieldVal.i (beVal (pySlice m 5 11))),
   ("raw_length", FieldVal.i m.length)]

/-- C7 (counterexample): a 4-byte type-'C' payload yields no record at all —
the common-header extraction fails before the generic fallback — so the claim
does not hold for *every* type-'C' payload. -/
theorem typeC_generic_fallback_counterexample :
    _parse_message [67, 0, 0, 0] = none := by
  decide

/-- C7 (amended): every type-'C' payload of at least 5 bytes (long enough for
the common header) is decoded by the generic fallback into a record holding
exactly the four common header fields plus the raw payload length, and the
Categorizer appends that record to the `order_executions` bucket. -/
theorem typeC_generic_fallback_amended (m : Bytes) (h0 : m.get? 0 = some 67)
    (h5 : 5 ≤ m.length) :
    _parse_message m = some (genericRecordC m) ∧
    (∀ bm : BufferMap,
      _categorize_message (genericRecordC m) bm =
        appendTo bm "order_executions" (genericRecordC m)) := by
  have hc : Char.ofNat m.headI = 'C' := by rw [headI_eq_of_get? h0]
  constructor
  · rw [parse_message_generic m h5 (by rw [hc]; try rfl), hc]
    rfl
  · intro bm
    simp [_categorize_message, genericRecordC, getField]

theorem typeC_generic_fallback_amended_witness :
    _parse_message mC_sample = some (genericRecordC mC_sample) ∧
    genericRecordC mC_sample =
      [("message_type", FieldVal.s "C"), ("stock_locate", FieldVal.i 1),
       ("tracking_number", FieldVal.i 2), ("timestamp", FieldVal.i 0),
       ("raw_length", FieldVal.i 5)] ∧
    _categorize_message (genericRecordC mC_sample) _initialize_message_buffers =
      appendTo _initialize_message_buffers "order_executions" (genericRecordC mC_sample) := by
  have h := typeC_generic_fallback_amended mC_sample (by decide) (by decide)
  exact ⟨h.1, by decide, h.2 _initialize_message_buffers⟩

theorem dropWhile_replicate_zero (a : Nat) (l : Bytes) :
    List.dropWhile (fun x => x == 0) (List.replicate a 0 ++ l) =
      List.dropWhile (fun x => x == 0) l := by
  induction a with
  | zero => rfl
  | succ k ih => simpa [List.replicate_succ] using ih

theorem stripNul_sandwich (a b : Nat) (core : Bytes) (hne : core ≠ [])
    (hhead : core.headI ≠ 0) (hlast : core.getLast hne ≠ 0) :
    stripNul (List.replicate a 0 ++ core ++ List.replicate b 0) = core := by
  unfold stripNul
  rw [List.append_assoc, dropWhile_replicate_zero]
  have h1 : List.dropWhile (fun x => x == 0) (core ++ List.replicate b 0) =
      core ++ List.replicate b 0 := by
    cases core with
    | nil => exact absurd rfl hne
    | cons c cs =>
        rw [List.cons_append, List.dropWhile_cons_of_neg]
        simp only [List.headI] at hhead
        simpa using hhead
  rw [h1, List.reverse_append, List.reverse_replicate, dropWhile_replicate_zero]
  have hg : core.reverse.head? = some (core.getLast hne) := by
    rw [List.head?_reverse, List.getLast?_eq_getLast _ hne]
  have h2 : List.dropWhile (fun x => x == 0) core.reverse = core.reverse := by
    cases hrev : core.reverse with
    | nil => rfl
    | cons d ds =>
        rw [List.dropWhile_cons_of_neg]
        rw [hrev] at hg
        simp only [List.head?] at hg
        have hd : d = core.getLast hne := by injection hg
        simpa [hd] using hlast
  rw [h2, List.reverse_reverse]

/-- C6 (amended): every fixed-width text window decodes to the ASCII reading
of the window with NUL padding stripped from *both* ends — leading as well as
trailing NUL bytes are removed; interior bytes (including interior NULs and a
trailing space) are preserved, and no trailing-space trimming is performed. -/
theorem textField_amended (a b : Nat) (core : Bytes) (hne : core ≠ [])
    (hhead : core.headI ≠ 0) (hlast : core.getLast hne ≠ 0)
    (hascii : ∀ x ∈ core, x < 128) :
    textField (List.replicate a 0 ++ core ++ List.replicate b 0) =
      String.mk (core.map Char.ofNat) := by
  unfold textField
  rw [stripNul_sandwich a b core hne hhead hlast]
  unfold asciiDecode
  rw [List.filter_eq_self.mpr]
  intro x hx
  simpa using hascii x hx

/-- C6 (counterexample): the code's text decoding strips the *leading* NUL of
the window `[0, 'A', 'B', 'C', 0, 0, 0, 0]` as well, giving `"ABC"`, while the
claim demands only trailing padding removal (which would keep the leading NUL);
the stock field of an R payload with that window is decoded to `"ABC"`. -/
theorem textField_counterexample :
    textField [0, 65, 66, 67, 0, 0, 0, 0] = "ABC" ∧
    specTextTrailingOnly [0, 65, 66, 67, 0, 0, 0, 0] =
      String.mk [Char.ofNat 0, 'A', 'B', 'C'] ∧
    textField [0, 65, 66, 67, 0, 0, 0, 0] ≠
      specTextTrailingOnly [0, 65, 66, 67, 0, 0, 0, 0] ∧
    (_parse_message mR_sample).bind (fun r => getField r "stock") =
      some (FieldVal.s "ABC") := by
  decide

theorem textField_amended_witness :
    textField (List.replicate 1 0 ++ [65, 32, 66] ++ List.replicate 2 0) =
      String.mk ([65, 32, 66].map Char.ofNat) ∧
    textField (List.replicate 1 0 ++ [65, 32, 66] ++ List.replicate 2 0) = "A B" := by
  have h := textField_amended 1 2 [65, 32, 66] (by decide) (by decide) (by decide)
    (by decide)
  exact ⟨h, h.trans (by decide)⟩

theorem requiredLen_le (c : Char) : requiredLen c ≤ 47 := by
  unfold requiredLen
  split_ifs <;> norm_num

/-- C2 (counterexample): a 21-byte type-'H' payload is shorter than the 25
bytes its routine's offsets require (`reason` reads bytes 21:25), yet the
Message Decoder *does* produce a record — the missing window is a slice, which
truncates instead of raising — so "produces no record" fails for it. -/
theorem shortPayload_drop_counterexample :
    mH_sample.get? 0 = some 72 ∧
    mH_sample.length < requiredLen (Char.ofNat 72) ∧
    _parse_message mH_sample = some
      [("message_type", FieldVal.s "H"), ("stock_locate", FieldVal.i 0),
       ("tracking_number", FieldVal.i 0), ("timestamp", FieldVal.i 0),
       ("stock", FieldVal.s "TEST"), ("trading_state", FieldVal.s "H"),
       ("reason", FieldVal.s "")] := by
  decide

/-- C2 (amended): for a payload of a dispatched message type that is shorter
than the offsets its decoding routine requires, the Message Decoder returns no
record — except when only a trailing text window is short ('H' payloads with
21 ≤ len < 25 and 'F' payloads with 35 ≤ len < 39 still yield a record with
truncated text).  In every case no error propagates: the driver's counter
still advances for that message and processing continues with the next
frame. -/
theorem shortPayload_drop_amended (m : Bytes) (b : Nat) (h0 : m.get? 0 = some b)
    (hdisp : (_get_parser_method (Char.ofNat b)).isSome = true)
    (hshort : m.length < requiredLen (Char.ofNat b)) :
    (_parse_message m = none ↔
      ¬ ((Char.ofNat b = 'H' ∧ 21 ≤ m.length) ∨
         (Char.ofNat b = 'F' ∧ 35 ≤ m.length))) ∧
    (∀ C : Nat, ∀ st : DriverState,
      (step C m st).message_count = st.message_count + 1) ∧
    (∀ (limit : Option Nat) (C : Nat) (rest : Bytes) (st : DriverState),
      limitHit limit st.message_count = false →
      runLoop limit C (encodeFrame m ++ rest) st =
        runLoop limit C rest (step C m st)) := by
  have hlen0 : 0 < m.length := length_pos_of_get? h0
  have hhead : m.headI = b := headI_eq_of_get? h0
  have hiff := parse_message_none_iff m hlen0
  rw [hhead] at hiff
  refine ⟨?_, fun C st => step_message_count C m st,
    fun limit C rest st hl => runLoop_frame_cons limit C m rest st hl hlen0 ?_⟩
  · rw [hiff]
    by_cases hS : Char.ofNat b = 'S'
    · have ht : decodeThreshold (Char.ofNat b) = 12 := by rw [hS]; try rfl
      have hq : requiredLen (Char.ofNat b) = 12 := by rw [hS]; try rfl
      rw [ht]
      rw [hq] at hshort
      constructor
      · intro _ hcon
        rcases hcon with ⟨hch, _⟩ | ⟨hch, _⟩ <;> rw [hS] at hch <;>
          exact absurd hch (by decide)
      · intro _
        exact hshort
    by_cases hR : Char.ofNat b = 'R'
    · have ht : decodeThreshold (Char.ofNat b) = 44 := by rw [hR]; try rfl
      have hq : requiredLen (Char.ofNat b) = 44 := by rw [hR]; try rfl
      rw [ht]
      rw [hq] at hshort
      constructor
      · intro _ hcon
        rcases hcon with ⟨hch, _⟩ | ⟨hch, _⟩ <;> rw [hR] at hch <;>
          exact absurd hch (by decide)
      · intro _
        exact hshort
    by_cases hA : Char.ofNat b = 'A'
    · have ht : decodeThreshold (Char.ofNat b) = 35 := by rw [hA]; try rfl
      have hq : requiredLen (Char.ofNat b) = 35 := by rw [hA]; try rfl
      rw [ht]
      rw [hq] at hshort
      constructor
      · intro _ hcon
        rcases hcon with ⟨hch, _⟩ | ⟨hch, _⟩ <;> rw [hA] at hch <;>
          exact absurd hch (by decide)
      · intro _
        exact hshort
    by_cases hF : Char.ofNat b = 'F'
    · have ht : decodeThreshold (Char.ofNat b) = 35 := by rw [hF]; try rfl
      have hq : requiredLen (Char.ofNat b) = 39 := by rw [hF]; try rfl
      rw [ht]
      rw [hq] at hshort
      constructor
      · intro hlt hcon
        rcases hcon with ⟨hch, _⟩ | ⟨_, hge⟩
        · rw [hF] at hch
          exact absurd hch (by decide)
        · omega
      · intro hcon
        by_contra h35
        exact hcon (Or.inr ⟨hF, by omega⟩)
    by_cases hE : Char.ofNat b = 'E'
    · have ht : decodeThreshold (Char.ofNat b) = 31 := by rw [hE]; try rfl
      have hq : requiredLen (Char.ofNat b) = 31 := by rw [hE]; try rfl
      rw [ht]
      rw [hq] at hshort
      constructor
      · intro _ hcon
        rcases hcon with ⟨hch, _⟩ | ⟨hch, _⟩ <;> rw [hE] at hch <;>
          exact absurd hch (by decide)
      · intro _
        exact hshort
    by_cases hP : Char.ofNat b = 'P'
    · have ht : decodeThreshold (Char.ofNat b) = 47 := by rw [hP]; try rfl
      have hq : requiredLen (Char.ofNat b) = 47 := by rw [hP]; try rfl
      rw [ht]
      rw [hq] at hshort
      constructor
      · intro _ hcon
        rcases hcon with ⟨hch, _⟩ | ⟨hch, _⟩ <;> rw [hP] at hch <;>
          exact absurd hch (by decide)
      · intro _
        exact hshort
    by_cases hX : Char.ofNat b = 'X'
    · have ht : decodeThreshold (Char.ofNat b) = 23 := by rw [hX]; try rfl
      have hq : requiredLen (Char.ofNat b) = 23 := by rw [hX]; try rfl
      rw [ht]
      rw [hq] at hshort
      constructor
      · intro _ hcon
        rcases hcon with ⟨hch, _⟩ | ⟨hch, _⟩ <;> rw [hX] at hch <;>
          exact absurd hch (by decide)
      · intro _
        exact hshort
    by_cases hD : Char.ofNat b = 'D'
    · have ht : decodeThreshold (Char.ofNat b) = 19 := by rw [hD]; try rfl
      have hq : requiredLen (Char.ofNat b) = 19 := by rw [hD]; try rfl
      rw [ht]
      rw [hq] at hshort
      constructor
      · intro _ hcon
        rcases hcon with ⟨hch, _⟩ | ⟨hch, _⟩ <;> rw [hD] at hch <;>
          exact absurd hch (by decide)
      · intro _
        exact hshort
    by_cases hU : Char.ofNat b = 'U'
    · have ht : decodeThreshold (Char.ofNat b) = 35 := by rw [hU]; try rfl
      have hq : requiredLen (Char.ofNat b) = 35 := by rw [hU]; try rfl
      rw [ht]
      rw [hq] at hshort
      constructor
      · intro _ hcon
        rcases hcon with ⟨hch, _⟩ | ⟨hch, _⟩ <;> rw [hU] at hch <;>
          exact absurd hch (by decide)
      · intro _
        exact hshort
    by_cases hH : Char.ofNat b = 'H'
    · have ht : decodeThreshold (Char.ofNat b) = 21 := by rw [hH]; try rfl
      have hq : requiredLen (Char.ofNat b) = 25 := by rw [hH]; try rfl
      rw [ht]
      rw [hq] at hshort
      constructor
      · intro hlt hcon
        rcases hcon with ⟨_, hge⟩ | ⟨hch, _⟩
        · omega
        · rw [hH] at hch
          exact absurd hch (by decide)
      · intro hcon
        by_contra h21
        exact hcon (Or.inl ⟨hH, by omega⟩)
    · exfalso
      unfold _get_parser_method at hdisp
      simp only [hS, hR, hA, hF, hE, hP, hX, hD, hU, hH, if_false, reduceIte] at hdisp
      simp at hdisp
  · have := requiredLen_le (Char.ofNat b)
    omega

theorem shortPayload_drop_amended_witness :
    _parse_message mD_sample = none ∧
    (∀ C : Nat, ∀ st : DriverState,
      (step C mD_sample st).message_count = st.message_count + 1) := by
  have h := shortPayload_drop_amended mD_sample 68 (by decide) (by decide) (by decide)
  exact ⟨h.1.mpr (by decide), h.2.1⟩

theorem flushOp_nonempty (n : Nat) (bm : BufferMap) :
    ∀ kv ∈ (flushOp n bm).2, kv.2 ≠ ([] : List Record) := by
  intro kv hkv
  simp only [flushOp, List.mem_filter] at hkv
  intro hnil
  rw [hnil] at hkv
  simp at hkv

/-- A run over a fully well-formed framed stream is the fold of `step` over
its payloads, plus the final flush when the count is off a chunk boundary. -/
theorem cleanRun_eq (C : Nat) (ps : List Bytes)
    (hwf : ∀ p ∈ ps, 0 < p.length ∧ p.length < 65536) :
    parse_file_to_hdf5 none C (List.replicate 44 0 ++ encodeStream ps) =
      (if (ps.foldl (fun s p => step C p s)
            ⟨_initialize_message_buffers, 0, 0, []⟩).message_count % C ≠ 0 then
        { ps.foldl (fun s p => step C p s) ⟨_initialize_message_buffers, 0, 0, []⟩ with
            flushes := (ps.foldl (fun s p => step C p s)
                ⟨_initialize_message_buffers, 0, 0, []⟩).flushes ++
              [flushOp (ps.foldl (fun s p => step C p s)
                  ⟨_initialize_message_buffers, 0, 0, []⟩).chunk_count
                (ps.foldl (fun s p => step C p s)
                  ⟨_initialize_message_buffers, 0, 0, []⟩).buffers] }
      else ps.foldl (fun s p => step C p s) ⟨_initialize_message_buffers, 0, 0, []⟩) := by
  unfold parse_file_to_hdf5
  rw [drop_preamble]
  have h := runLoop_encodeStream_append none C ps [] ⟨_initialize_message_buffers, 0, 0, []⟩ hwf
  rw [List.append_nil] at h
  rw [h, runLoop_nil, procPayloads_none]

/-- C3 (amended): for a well-formed stream of M messages with chunk size C,
the number of flushes is ceil(M / C) with chunk numbers 0, 1, ...; the final
stream-end flush (performed only when M is not a multiple of C) uses the
current chunk number without incrementing it; every flush writes only
non-empty buckets; every mid-stream flush clears all buckets (so when M is a
multiple of C the run ends with all buckets freshly cleared), but the final
stream-end flush does *not* clear them — it writes the buffers left in
place. -/
theorem chunk_flush_amended (ps : List Bytes) (C : Nat) (hC : 0 < C)
    (hwf : ∀ p ∈ ps, 0 < p.length ∧ p.length < 65536) :
    (parse_file_to_hdf5 none C (List.replicate 44 0 ++ encodeStream ps)).message_count
        = ps.length ∧
    (parse_file_to_hdf5 none C (List.replicate 44 0 ++ encodeStream ps)).flushes.length
        = (ps.length + C - 1) / C ∧
    (parse_file_to_hdf5 none C (List.replicate 44 0 ++ encodeStream ps)).flushes.map
        Prod.fst = List.range ((ps.length + C - 1) / C) ∧
    (∀ f ∈ (parse_file_to_hdf5 none C (List.replicate 44 0 ++ encodeStream ps)).flushes,
      ∀ kv ∈ f.2, kv.2 ≠ ([] : List Record)) ∧
    (ps.length % C = 0 →
      (parse_file_to_hdf5 none C (List.replicate 44 0 ++ encodeStream ps)).buffers
        = _initialize_message_buffers) ∧
    (ps.length % C ≠ 0 →
      (parse_file_to_hdf5 none C (List.replicate 44 0 ++ encodeStream ps)).chunk_count
          = ps.length / C ∧
      (parse_file_to_hdf5 none C (List.replicate 44 0 ++ encodeStream ps)).flushes.getLast?
        = some (flushOp (ps.length / C)
            (parse_file_to_hdf5 none C (List.replicate 44 0 ++ encodeStream ps)).buffers)) := by
  have hinv : LoopInv C ps.length
      (ps.foldl (fun s p => step C p s) ⟨_initialize_message_buffers, 0, 0, []⟩) := by
    have h := LoopInv_foldl C hC ps 0 ⟨_initialize_message_buffers, 0, 0, []⟩ (LoopInv_init C)
    simpa using h
  obtain ⟨h1, h2, h3, h4, h5, h6⟩ := hinv
  have hflen : (ps.foldl (fun s p => step C p s)
      ⟨_initialize_message_buffers, 0, 0, []⟩).flushes.length = ps.length / C := by
    have := congrArg List.length h3
    simpa using this
  rw [cleanRun_eq C ps hwf]
  by_cases hmod : ps.length % C = 0
  · rw [if_neg (by rw [h1]; omega)]
    have hceil : (ps.length + C - 1) / C = ps.length / C := by
      rw [ceil_div_cases _ _ hC, if_pos hmod]
    exact ⟨h1, by rw [hflen, hceil], by rw [h3, hceil], h4, fun _ => h5 hmod,
      fun hcon => absurd hmod hcon⟩
  · rw [if_pos (by rw [h1]; exact hmod)]
    have hceil : (ps.length + C - 1) / C = ps.length / C + 1 := by
      rw [ceil_div_cases _ _ hC, if_neg hmod]
    refine ⟨h1, ?_, ?_, ?_, fun hcon => absurd hcon hmod, fun _ => ⟨h2, ?_⟩⟩
    · simp only [List.length_append, List.length_cons, List.length_nil, hflen, hceil]
    · simp only [List.map_append, h3, hceil, List.range_succ, h2, List.map_cons,
        List.map_nil, flushOp]
    · intro f hf kv hkv
      rcases List.mem_append.mp hf with hf | hf
      · exact h4 f hf kv hkv
      · simp only [List.mem_singleton] at hf
        subst hf
        exact flushOp_nonempty _ _ kv hkv
    · rw [List.getLast?_concat, h2]

/-- C3 (counterexample): on a well-formed single-message stream with chunk
size 2 the run performs exactly one flush (the final one), yet afterwards the
buckets are *not* all empty — the final flush does not clear them — refuting
"each flush ... then leaves all buckets empty". -/
theorem chunk_flush_counterexample :
    (parse_file_to_hdf5 none 2
        (List.replicate 44 0 ++ encodeStream [sPayload_scenario])).flushes.length = 1 ∧
    (parse_file_to_hdf5 none 2
        (List.replicate 44 0 ++ encodeStream [sPayload_scenario])).buffers ≠
      _initialize_message_buffers := by
  decide

theorem chunk_flush_amended_witness :
    (parse_file_to_hdf5 none 2
        (List.replicate 44 0 ++ encodeStream [sPayload_scenario])).message_count = 1 ∧
    (parse_file_to_hdf5 none 2
        (List.replicate 44 0 ++ encodeStream [sPayload_scenario])).flushes.length = 1 ∧
    (parse_file_to_hdf5 none 2
        (List.replicate 44 0 ++ encodeStream [sPayload_scenario])).flushes.getLast?
      = some (flushOp 0
          (parse_file_to_hdf5 none 2
            (List.replicate 44 0 ++ encodeStream [sPayload_scenario])).buffers) := by
  have h := chunk_flush_amended [sPayload_scenario] 2 (by norm_num) (by decide)
  refine ⟨h.1, by simpa using h.2.1, ?_⟩
  have h6 := (h.2.2.2.2.2 (by decide)).2
  simpa using h6

/-- C4: when the Kth frame's declared length (the big-endian value of its
2-byte prefix) exceeds the bytes remaining after the prefix, processing stops
at frame K: the run is identical to the run on the stream without that frame —
exactly the K−1 prior messages are counted, their records retained, and no
record is produced for message K. -/
theorem truncation_stops_run (ps : List Bytes) (C a b : Nat) (tail : Bytes)
    (hC : 0 < C) (hwf : ∀ p ∈ ps, 0 < p.length ∧ p.length < 65536)
    (htrunc : tail.length < a * 256 + b) :
    parse_file_to_hdf5 none C
        (List.replicate 44 0 ++ (encodeStream ps ++ a :: b :: tail)) =
      parse_file_to_hdf5 none C (List.replicate 44 0 ++ encodeStream ps) ∧
    (parse_file_to_hdf5 none C (List.replicate 44 0 ++ encodeStream ps)).message_count
      = ps.length := by
  constructor
  · unfold parse_file_to_hdf5
    rw [drop_preamble, drop_preamble]
    rw [runLoop_encodeStream_append none C ps (a :: b :: tail) _ hwf]
    rw [runLoop_truncated none C a b tail _ htrunc]
    have h := runLoop_encodeStream_append none C ps [] ⟨_initialize_message_buffers, 0, 0, []⟩ hwf
    rw [List.append_nil] at h
    rw [h, runLoop_nil]
  · rw [cleanRun_eq C ps hwf]
    have hinv : LoopInv C ps.length
        (ps.foldl (fun s p => step C p s) ⟨_initialize_message_buffers, 0, 0, []⟩) := by
      have h := LoopInv_foldl C hC ps 0 ⟨_initialize_message_buffers, 0, 0, []⟩ (LoopInv_init C)
      simpa using h
    split
    · exact hinv.1
    · exact hinv.1

theorem truncation_stops_run_witness :
    parse_file_to_hdf5 none 2
        (List.replicate 44 0 ++ (encodeStream [sPayload_scenario] ++ 0 :: 5 :: [1, 2])) =
      parse_file_to_hdf5 none 2 (List.replicate 44 0 ++ encodeStream [sPayload_scenario]) ∧
    (parse_file_to_hdf5 none 2
        (List.replicate 44 0 ++ encodeStream [sPayload_scenario])).message_count = 1 :=
  truncation_stops_run [sPayload_scenario] 2 0 5 [1, 2] (by norm_num) (by decide)
    (by norm_num)

/-- C10: a frame whose 2-byte length prefix declares length zero stops
processing as if the stream were truncated: the empty payload is not decoded,
the message counter is not advanced for it, and no later frames are processed
even if well-formed frames follow — the run equals the run on the stream cut
before that frame. -/
theorem zero_length_frame_stops_run (ps : List Bytes) (C : Nat) (tail : Bytes)
    (hC : 0 < C) (hwf : ∀ p ∈ ps, 0 < p.length ∧ p.length < 65536) :
    parse_file_to_hdf5 none C
        (List.replicate 44 0 ++ (encodeStream ps ++ 0 :: 0 :: tail)) =
      parse_file_to_hdf5 none C (List.replicate 44 0 ++ encodeStream ps) ∧
    (parse_file_to_hdf5 none C (List.replicate 44 0 ++ encodeStream ps)).message_count
      = ps.length := by
  constructor
  · unfold parse_file_to_hdf5
    rw [drop_preamble, drop_preamble]
    rw [runLoop_encodeStream_append none C ps (0 :: 0 :: tail) _ hwf]
    rw [runLoop_zero_length_frame none C tail _]
    have h := runLoop_encodeStream_append none C ps [] ⟨_initialize_message_buffers, 0, 0, []⟩ hwf
    rw [List.append_nil] at h
    rw [h, runLoop_nil]
  · rw [cleanRun_eq C ps hwf]
    have hinv : LoopInv C ps.length
        (ps.foldl (fun s p => step C p s) ⟨_initialize_message_buffers, 0, 0, []⟩) := by
      have h := LoopInv_foldl C hC ps 0 ⟨_initialize_message_buffers, 0, 0, []⟩ (LoopInv_init C)
      simpa using h
    split
    · exact hinv.1
    · exact hinv.1

theorem zero_length_frame_stops_run_witness :
    parse_file_to_hdf5 none 2
        (List.replicate 44 0 ++
          (encodeStream [sPayload_scenario] ++
            0 :: 0 :: encodeStream [sPayload_scenario])) =
      parse_file_to_hdf5 none 2 (List.replicate 44 0 ++ encodeStream [sPayload_scenario]) ∧
    (parse_file_to_hdf5 none 2
        (List.replicate 44 0 ++ encodeStream [sPayload_scenario])).message_count = 1 :=
  zero_length_frame_stops_run [sPayload_scenario] 2 (encodeStream [sPayload_scenario])
    (by norm_num) (by decide)

/-- C5 (amended): a `limit = 3` run over a 10-message well-formed file always
processes exactly 3 messages, but the number of flushes is ceil(3 / chunksize),
not always one: only when chunksize exceeds 3 does exactly one flush occur,
at stream end (no mid-stream flush ever increments the chunk counter). -/
theorem limit_three_amended (ps : List Bytes) (C : Nat) (hC : 0 < C)
    (hlen : ps.length = 10) (hwf : ∀ p ∈ ps, 0 < p.length ∧ p.length < 65536) :
    (parse_file_to_hdf5 (some 3) C
        (List.replicate 44 0 ++ encodeStream ps)).message_count = 3 ∧
    (parse_file_to_hdf5 (some 3) C
        (List.replicate 44 0 ++ encodeStream ps)).flushes.length = (3 + C - 1) / C ∧
    (3 < C →
      (parse_file_to_hdf5 (some 3) C
          (List.replicate 44 0 ++ encodeStream ps)).chunk_count = 0 ∧
      (parse_file_to_hdf5 (some 3) C
          (List.replicate 44 0 ++ encodeStream ps)).flushes.length = 1) := by
  have htk : (ps.take 3).length = 3 := by
    rw [List.length_take]
    omega
  have hinv : LoopInv C 3
      ((ps.take 3).foldl (fun s p => step C p s)
        ⟨_initialize_message_buffers, 0, 0, []⟩) := by
    have h := LoopInv_foldl C hC (ps.take 3) 0
      ⟨_initialize_message_buffers, 0, 0, []⟩ (LoopInv_init C)
    rw [htk] at h
    simpa using h
  obtain ⟨h1, h2, h3, h4, h5, h6⟩ := hinv
  have hflen : ((ps.take 3).foldl (fun s p => step C p s)
      ⟨_initialize_message_buffers, 0, 0, []⟩).flushes.length = 3 / C := by
    have := congrArg List.length h3
    simpa using this
  have hrun : parse_file_to_hdf5 (some 3) C (List.replicate 44 0 ++ encodeStream ps) =
      (if ((ps.take 3).foldl (fun s p => step C p s)
            ⟨_initialize_message_buffers, 0, 0, []⟩).message_count % C ≠ 0 then
        { (ps.take 3).foldl (fun s p => step C p s)
            ⟨_initialize_message_buffers, 0, 0, []⟩ with
            flushes := ((ps.take 3).foldl (fun s p => step C p s)
                ⟨_initialize_message_buffers, 0, 0, []⟩).flushes ++
              [flushOp ((ps.take 3).foldl (fun s p => step C p s)
                  ⟨_initialize_message_buffers, 0, 0, []⟩).chunk_count
                ((ps.take 3).foldl (fun s p => step C p s)
                  ⟨_initialize_message_buffers, 0, 0, []⟩).buffers] }
      else (ps.take 3).foldl (fun s p => step C p s)
        ⟨_initialize_message_buffers, 0, 0, []⟩) := by
    unfold parse_file_to_hdf5
    rw [drop_preamble]
    have h := runLoop_encodeStream_append (some 3) C ps []
      ⟨_initialize_message_buffers, 0, 0, []⟩ hwf
    rw [List.append_nil] at h
    rw [h, runLoop_nil]
    rw [procPayloads_limit C 3 (by norm_num) ps _ (Nat.zero_le 3)]
    rfl
  rw [hrun]
  by_cases hmod : 3 % C = 0
  · rw [if_neg (by rw [h1]; omega)]
    have hceil : (3 + C - 1) / C = 3 / C := by
      rw [ceil_div_cases _ _ hC, if_pos hmod]
    refine ⟨h1, by rw [hflen, hceil], fun h3C => ?_⟩
    exfalso
    have := Nat.mod_eq_of_lt h3C
    omega
  · rw [if_pos (by rw [h1]; exact hmod)]
    have hceil : (3 + C - 1) / C = 3 / C + 1 := by
      rw [ceil_div_cases _ _ hC, if_neg hmod]
    refine ⟨h1, ?_, fun h3C => ?_⟩
    · simp only [List.length_append, List.length_cons, List.length_nil, hflen, hceil]
    · have hd : 3 / C = 0 := Nat.div_eq_of_lt h3C
      constructor
      · exact h2.trans hd
      · simp only [List.length_append, List.length_cons, List.length_nil, hflen, hd]

set_option maxRecDepth 40000 in
/-- C5 (counterexample): with chunksize 1, a `limit = 3` run over a 10-message
well-formed file performs three flushes, not one — the claimed "exactly one
flush at stream end regardless of chunksize" is false. -/
theorem limit_three_counterexample :
    (parse_file_to_hdf5 (some 3) 1
        (List.replicate 44 0 ++ encodeStream (List.replicate 10 sPayload_scenario))
      ).flushes.length = 3 ∧
    (parse_file_to_hdf5 (some 3) 1
        (List.replicate 44 0 ++ encodeStream (List.replicate 10 sPayload_scenario))
      ).message_count = 3 := by
  decide

theorem limit_three_amended_witness :
    (parse_file_to_hdf5 (some 3) 100000
        (List.replicate 44 0 ++ encodeStream (List.replicate 10 sPayload_scenario))
      ).message_count = 3 ∧
    (parse_file_to_hdf5 (some 3) 100000
        (List.replicate 44 0 ++ encodeStream (List.replicate 10 sPayload_scenario))
      ).flushes.length = 1 ∧
    (parse_file_to_hdf5 (some 3) 100000
        (List.replicate 44 0 ++ encodeStream (List.replicate 10 sPayload_scenario))
      ).chunk_count = 0 := by
  have h := limit_three_amended (List.replicate 10 sPayload_scenario) 100000
    (by norm_num) (by simp) (by decide)
  exact ⟨h.1, by simpa using h.2.1, (h.2.2 (by norm_num)).1⟩
